import Mathlib

/-!
Verification of the date-iterator library (calendar-aware durations and
date iterators) against its specification.

The development shallowly embeds the Rust sources:
  - src/calendar_duration.rs : CalendarDuration, add_years, add_months_*
    checked_add, add, operator impls;
  - src/lib.rs               : is_leap_year, last_day_of_month,
    last_day_of_month_0;
  - src/date_iterator.rs and src/date_iterators.rs : the open-ended,
    closed and pairwise iterators (the iterator structs and next bodies
    are identical in the two files).

External collaborator (the chrono library) is modelled from its
documented semantics: proleptic Gregorian dates with years in
[-262144, 262143] (chrono MIN_YEAR / MAX_YEAR), NaiveDateTime as a date
plus nanoseconds-of-day, Duration as a signed nanosecond count bounded
by plus/minus i64::MAX milliseconds, and DateTime as a UTC naive
datetime plus a fixed offset in seconds.

Machine integers are modelled as Int: unchecked Rust i32 arithmetic is
wrapped explicitly with wrap32 (release-mode two-complement semantics;
debug builds would abort on the same inputs, which the accompanying
results note where relevant), checked arithmetic with i32CheckedAdd /
i64CheckedAdd, and the Rust `as u32` cast with u32cast.

Rust code that can abort — the chrono from_ymd constructor evaluated
eagerly as the unwrap_or argument in last_day_of_month, the chrono
pred at the minimum representable date, the expect in add, and integer
division by zero or the overflowing i32 division -2147483648 / -1 —
returns a RunResult, whose aborts constructor marks the abort
explicitly; RunResult.ok wraps a normally returned value.
-/

namespace DateIter

/-- Two-complement wrap of an integer into the i32 range, modelling
release-mode overflow of unchecked Rust i32 arithmetic. -/
def wrap32 (x : Int) : Int :=
  (x + 2147483648) % 4294967296 - 2147483648

/-- The value is representable as an i32. -/
def InRange32 (x : Int) : Prop :=
  -2147483648 ≤ x ∧ x < 2147483648

instance (x : Int) : Decidable (InRange32 x) := by
  unfold InRange32; infer_instance

/-- Model of Rust i32::checked_add. -/
def i32CheckedAdd (a b : Int) : Option Int :=
  if -2147483648 ≤ a + b ∧ a + b < 2147483648 then some (a + b) else none

/-- Model of Rust i64::checked_add. -/
def i64CheckedAdd (a b : Int) : Option Int :=
  if -9223372036854775808 ≤ a + b ∧ a + b < 9223372036854775808 then some (a + b) else none

/-- Model of the Rust cast `as u32` applied to a signed integer:
truncating two-complement conversion. -/
def u32cast (x : Int) : Nat :=
  (x % 4294967296).toNat

/-- Wrapping u32 addition of one, modelling `m + 1` on a Rust u32 in
release mode (debug builds abort on overflow at m = 4294967295). -/
def u32succ (m : Nat) : Nat :=
  (m + 1) % 4294967296

/-- Outcome of running a piece of Rust code that can abort: aborts
marks a panic (the process stops with no value), ok a normally
returned value. -/
inductive RunResult (α : Type) where
  | aborts : RunResult α
  | ok : α → RunResult α
deriving DecidableEq

/-- Sequencing of abort-capable computations: an abort propagates. -/
def RunResult.bind {α β : Type} : RunResult α → (α → RunResult β) → RunResult β
  | .aborts, _ => .aborts
  | .ok a, f => f a

/-- Model of the try_opt macro of the source inside an abort-capable
function: a none makes the surrounding function return none normally. -/
def optStep {α β : Type} : Option α → (α → RunResult (Option β)) → RunResult (Option β)
  | none, _ => .ok none
  | some a, f => f a

/-- Model of a Rust partial operation whose chrono or integer
counterpart panics exactly where the Option model is none. -/
def orAbort {α β : Type} : Option α → (α → RunResult β) → RunResult β
  | none, _ => .aborts
  | some a, f => f a

/-! ### Model of chrono NaiveDate -/

/-- Model of chrono NaiveDate: a proleptic Gregorian calendar date.
Validity (month in 1..12, day in range, year within chrono bounds) is a
separate predicate; operations that construct dates only ever produce
valid ones, as chrono does. -/
structure NaiveDate where
  year : Int
  month : Nat
  day : Nat
deriving DecidableEq

/-- Proleptic Gregorian leap-year rule, as computed by chrono. -/
def gregLeap (y : Int) : Bool :=
  (y % 4 == 0 && y % 100 != 0) || y % 400 == 0

/-- Number of days of the given month (1-based) in the given year,
per the proleptic Gregorian calendar used by chrono. -/
def daysInMonth (y : Int) (m : Nat) : Nat :=
  if m = 2 then (if gregLeap y then 29 else 28)
  else if m = 4 ∨ m = 6 ∨ m = 9 ∨ m = 11 then 30
  else 31

/-- The date is a real calendar date within chrono year bounds
(chrono MIN_YEAR = -262144, MAX_YEAR = 262143). -/
def NaiveDate.Valid (d : NaiveDate) : Prop :=
  -262144 ≤ d.year ∧ d.year ≤ 262143 ∧ 1 ≤ d.month ∧ d.month ≤ 12 ∧
    1 ≤ d.day ∧ d.day ≤ daysInMonth d.year d.month

instance (d : NaiveDate) : Decidable d.Valid := by
  unfold NaiveDate.Valid; infer_instance

/-- Model of chrono NaiveDate::from_ymd_opt: some exactly on valid
year / month / day triples inside the representable year range. -/
def fromYmdOpt (y : Int) (m d : Nat) : Option NaiveDate :=
  if -262144 ≤ y ∧ y ≤ 262143 ∧ 1 ≤ m ∧ m ≤ 12 ∧ 1 ≤ d ∧ d ≤ daysInMonth y m
  then some ⟨y, m, d⟩ else none

/-- Next calendar day, none past the maximum representable date
(chrono NaiveDate::succ_opt). -/
def succOpt (d : NaiveDate) : Option NaiveDate :=
  if d.day < daysInMonth d.year d.month then some ⟨d.year, d.month, d.day + 1⟩
  else if d.month < 12 then some ⟨d.year, d.month + 1, 1⟩
  else if d.year < 262143 then some ⟨d.year + 1, 1, 1⟩
  else none

/-- Previous calendar day, none below the minimum representable date
(chrono NaiveDate::pred_opt). -/
def predOpt (d : NaiveDate) : Option NaiveDate :=
  if 1 < d.day then some ⟨d.year, d.month, d.day - 1⟩
  else if 1 < d.month then some ⟨d.year, d.month - 1, daysInMonth d.year (d.month - 1)⟩
  else if -262144 < d.year then some ⟨d.year - 1, 12, 31⟩
  else none

/-- Iterated successor. -/
def succIter : Nat → NaiveDate → Option NaiveDate
  | 0, d => some d
  | n + 1, d => (succOpt d).bind (succIter n)

/-- Iterated predecessor. -/
def predIter : Nat → NaiveDate → Option NaiveDate
  | 0, d => some d
  | n + 1, d => (predOpt d).bind (predIter n)

/-- Model of adding a signed number of days to a chrono date, none when
the result leaves the representable range. -/
def addDays (d : NaiveDate) (k : Int) : Option NaiveDate :=
  if 0 ≤ k then succIter k.toNat d else predIter (-k).toNat d

/-! ### Model of chrono NaiveDateTime and DateTime -/

/-- Model of chrono NaiveDateTime: a date plus the nanoseconds elapsed
since midnight. -/
structure NaiveDateTime where
  date : NaiveDate
  time : Nat
deriving DecidableEq

/-- Validity of a naive datetime: valid date and a time of day below
86400 seconds (leap-second representations are not modelled). -/
def NaiveDateTime.Valid (x : NaiveDateTime) : Prop :=
  x.date.Valid ∧ x.time < 86400000000000

instance (x : NaiveDateTime) : Decidable x.Valid := by
  unfold NaiveDateTime.Valid; infer_instance

/-- Model of adding a signed number of nanoseconds to a chrono
NaiveDateTime (the shared core of checked_add_signed), none when the
resulting date leaves the representable range. -/
def addNanos (x : NaiveDateTime) (k : Int) : Option NaiveDateTime :=
  (addDays x.date (((x.time : Int) + k) / 86400000000000)).map
    fun d2 => ⟨d2, (((x.time : Int) + k) % 86400000000000).toNat⟩

/-- Model of chrono DateTime over a fixed offset: the naive datetime of
the UTC instant plus the offset (seconds east of UTC). Tz = Utc is the
special case offset = 0. -/
structure DateTimeTz where
  utc : NaiveDateTime
  offset : Int
deriving DecidableEq

/-- Local naive datetime of a DateTime, chrono naive_local: the UTC
instant shifted by the offset. none when the shift leaves the
representable range (unreachable for values built by chrono, which
keeps the local representation in range). -/
def localOf (p : DateTimeTz) : Option NaiveDateTime :=
  addNanos p.utc (p.offset * 1000000000)

/-- Validity of a DateTime value: the UTC naive datetime is valid and
the local representation exists, as chrono guarantees by construction. -/
def DateTimeTz.Valid (p : DateTimeTz) : Prop :=
  p.utc.Valid ∧ (localOf p).isSome = true

instance (p : DateTimeTz) : Decidable p.Valid := by
  unfold DateTimeTz.Valid; infer_instance

/-- Model of the chrono Datelike year() accessor on DateTime, which
reads the local calendar year. The getD default is unreachable for
valid values. -/
def yearOf (p : DateTimeTz) : Int :=
  ((localOf p).getD p.utc).date.year

/-- Model of chrono Datelike with_year on a DateTime over a fixed
offset: replace the year of the local date, keeping local month, day
and time of day, then convert back to UTC; none when the new local date
is invalid (for example February 29 of a non-leap year) or out of
range. -/
def withYearTz (p : DateTimeTz) (y : Int) : Option DateTimeTz :=
  (localOf p).bind fun l =>
    (fromYmdOpt y l.date.month l.date.day).bind fun d2 =>
      (addNanos ⟨d2, l.time⟩ (-(p.offset * 1000000000))).map fun u =>
        DateTimeTz.mk u p.offset

/-- Model of chrono Duration (OldDuration in the source): a signed
nanosecond count. chrono bounds its values by plus/minus i64::MAX
milliseconds; the bound is enforced where chrono enforces it
(checked_add). -/
structure OldDuration where
  nanos : Int
deriving DecidableEq

/-- Model of chrono Duration::checked_add: none when the sum leaves the
chrono Duration bounds (plus/minus i64::MAX milliseconds; the i64::MIN
millisecond lower bound of chrono is -9223372036854775808 ms). -/
def durCheckedAdd (a b : OldDuration) : Option OldDuration :=
  if -9223372036854775808000000 ≤ a.nanos + b.nanos ∧
      a.nanos + b.nanos ≤ 9223372036854775807000000
  then some ⟨a.nanos + b.nanos⟩ else none

/-- Model of chrono DateTime::checked_add_signed: add the fixed
duration to the UTC instant, keeping the offset; none on overflow of
the representable range. -/
def dtCheckedAddSigned (p : DateTimeTz) (d : OldDuration) : Option DateTimeTz :=
  (addNanos p.utc d.nanos).map fun u => DateTimeTz.mk u p.offset

/-! ### Chronological order on model values

chrono orders DateTime values by their UTC instants; on valid values
that order coincides with the lexicographic order on (year, month,
day, time) used here. -/

/-- Lexicographic (chronological) strict order on dates. -/
def NaiveDate.ltP (a b : NaiveDate) : Prop :=
  a.year < b.year ∨ (a.year = b.year ∧
    (a.month < b.month ∨ (a.month = b.month ∧ a.day < b.day)))

instance (a b : NaiveDate) : Decidable (a.ltP b) := by
  unfold NaiveDate.ltP; infer_instance

/-- Chronological strict order on naive datetimes. -/
def NaiveDateTime.ltP (a b : NaiveDateTime) : Prop :=
  a.date.ltP b.date ∨ (a.date = b.date ∧ a.time < b.time)

instance (a b : NaiveDateTime) : Decidable (a.ltP b) := by
  unfold NaiveDateTime.ltP; infer_instance

/-- Model of the chrono PartialOrd on DateTime: compare UTC instants. -/
def DateTimeTz.ltP (a b : DateTimeTz) : Prop :=
  a.utc.ltP b.utc

instance (a b : DateTimeTz) : Decidable (a.ltP b) := by
  unfold DateTimeTz.ltP; infer_instance

/-- Chronological non-strict order on DateTime values (UTC instants). -/
def DateTimeTz.leP (a b : DateTimeTz) : Prop :=
  a.utc.ltP b.utc ∨ a.utc = b.utc

instance (a b : DateTimeTz) : Decidable (a.leP b) := by
  unfold DateTimeTz.leP; infer_instance

/-! ### src/lib.rs -/

/-- Embedding of is_leap_year from src/lib.rs: a year is leap when
February 29 of that year exists. -/
def is_leap_year (year : Int) : Bool :=
  (fromYmdOpt year 2 29).isSome

/-- Embedding of last_day_of_month from src/lib.rs: the day component
of the predecessor of the first day of the following month, where the
following January is the unwrap_or fallback. Rust unwrap_or evaluates
its argument eagerly, so NaiveDate::from_ymd(year + 1, 1, 1) runs on
every call and aborts (panics) whenever year + 1 is outside the chrono
range — in particular on every call with year = 262143, the maximum
representable year, and on every call with year beyond the chrono
range (the release-mode i32 wrap of year + 1 at i32::MAX also lands
outside the range, so the abort is faithful there too). The pred of
the resulting date aborts at the minimum representable date. Both
abort paths are the orAbort branches. The `month + 1` is u32
arithmetic, hence u32succ. -/
def last_day_of_month (year : Int) (month : Nat) : RunResult Nat :=
  orAbort (fromYmdOpt (year + 1) 1 1) fun fallback =>
    orAbort (predOpt ((fromYmdOpt year (u32succ month) 1).getD fallback)) fun p =>
      .ok p.day

/-- Embedding of last_day_of_month_0 from src/lib.rs (u32 increment of
the zero-based month). -/
def last_day_of_month_0 (year : Int) (month_0 : Nat) : RunResult Nat :=
  last_day_of_month year (u32succ month_0)

/-! ### src/calendar_duration.rs : the CalendarDuration value type -/

/-- Embedding of CalendarDuration: a fixed elapsed duration plus signed
i32 month and year counts (modelled as Int, see the header). -/
structure CalendarDuration where
  duration : OldDuration
  months : Int
  years : Int
deriving DecidableEq

/-- Embedding of CalendarDuration::years. -/
def CalendarDuration.mkYears (years : Int) : CalendarDuration :=
  ⟨⟨0⟩, 0, years⟩

/-- Embedding of CalendarDuration::months. -/
def CalendarDuration.mkMonths (months : Int) : CalendarDuration :=
  ⟨⟨0⟩, months, 0⟩

/-- Embedding of CalendarDuration::weeks (chrono Duration::weeks). -/
def CalendarDuration.mkWeeks (weeks : Int) : CalendarDuration :=
  ⟨⟨weeks * 604800000000000⟩, 0, 0⟩

/-- Embedding of CalendarDuration::days (chrono Duration::days). -/
def CalendarDuration.mkDays (days : Int) : CalendarDuration :=
  ⟨⟨days * 86400000000000⟩, 0, 0⟩

/-- Embedding of CalendarDuration::hours. -/
def CalendarDuration.mkHours (hours : Int) : CalendarDuration :=
  ⟨⟨hours * 3600000000000⟩, 0, 0⟩

/-- Embedding of CalendarDuration::minutes. -/
def CalendarDuration.mkMinutes (minutes : Int) : CalendarDuration :=
  ⟨⟨minutes * 60000000000⟩, 0, 0⟩

/-- Embedding of CalendarDuration::seconds. -/
def CalendarDuration.mkSeconds (seconds : Int) : CalendarDuration :=
  ⟨⟨seconds * 1000000000⟩, 0, 0⟩

/-- Embedding of CalendarDuration::milliseconds. -/
def CalendarDuration.mkMilliseconds (ms : Int) : CalendarDuration :=
  ⟨⟨ms * 1000000⟩, 0, 0⟩

/-- Embedding of CalendarDuration::microseconds. -/
def CalendarDuration.mkMicroseconds (us : Int) : CalendarDuration :=
  ⟨⟨us * 1000⟩, 0, 0⟩

/-- Embedding of CalendarDuration::nanoseconds. -/
def CalendarDuration.mkNanoseconds (ns : Int) : CalendarDuration :=
  ⟨⟨ns⟩, 0, 0⟩

/-- Embedding of CalendarDuration::zero. -/
def CalendarDuration.zero : CalendarDuration :=
  ⟨⟨0⟩, 0, 0⟩

/-- Embedding of CalendarDuration::checked_add: componentwise, where
each component addition is the checked one of its carrier type
(chrono Duration::checked_add, i32::checked_add twice), in the order
the struct literal evaluates them. -/
def CalendarDuration.checked_add (a b : CalendarDuration) : Option CalendarDuration :=
  (durCheckedAdd a.duration b.duration).bind fun d =>
    (i32CheckedAdd a.months b.months).bind fun m =>
      (i32CheckedAdd a.years b.years).map fun y => CalendarDuration.mk d m y

/-- Embedding of the Mul impl for references to CalendarDuration:
unchecked componentwise scaling. The i32 components wrap (release
semantics, wrap32); the chrono Duration component multiplies the
nanosecond count (chrono scales unchecked as well; the modelled
claims never exercise its overflow region). -/
def calMulRef (d : CalendarDuration) (rhs : Int) : CalendarDuration :=
  ⟨⟨d.duration.nanos * rhs⟩, wrap32 (d.months * rhs), wrap32 (d.years * rhs)⟩

/-- Model of the Div impl of chrono Duration by an i32, on the total
nanosecond count t. chrono stores seconds and a nonnegative nanosecond
remainder (t = secs * 10^9 + nanos with nanos in [0, 10^9), that is
secs = fdiv t 10^9 and nanos = emod t 10^9) and divides the two fields
separately with truncating integer division, carrying the remainder of
the second division into the nanosecond division; the final field
normalization of chrono does not change the total, so the model
returns the total of the pre-normalization fields. This double
truncation is neither floor nor truncation of the total: chrono gives
333333333 ns for (1s + 2ns) / 3 where floor of the total would give
333333334, and -1 ns for 3ns / -2 where floor would give -2. -/
def durDiv (t : Int) (rhs : Int) : Int :=
  let secs := Int.fdiv t 1000000000
  let nanos0 := Int.emod t 1000000000
  let secs2 := Int.tdiv secs rhs
  let carry := secs - secs2 * rhs
  let extra_nanos := Int.tdiv (carry * 1000000000) rhs
  secs2 * 1000000000 + (Int.tdiv nanos0 rhs + extra_nanos)

/-- Embedding of the Div impl for CalendarDuration: componentwise
scalar division. Rust integer division aborts (panics) on a zero
divisor and on the single overflowing dividend/divisor pair
(-2147483648, -1) of the i32 month and year components; both abort
paths are the aborts branch. The chrono Duration component divides per
durDiv; its i64 second count cannot overflow on division by -1 because
chrono Duration bounds keep it far from i64::MIN, so it adds no abort
path. The i32 components divide truncating toward zero. -/
def calDurDiv (d : CalendarDuration) (rhs : Int) : RunResult CalendarDuration :=
  if rhs = 0 ∨ (d.months = -2147483648 ∧ rhs = -1) ∨ (d.years = -2147483648 ∧ rhs = -1)
  then .aborts
  else .ok ⟨⟨durDiv d.duration.nanos rhs⟩, Int.tdiv d.months rhs, Int.tdiv d.years rhs⟩

/-! ### src/calendar_duration.rs : applying a duration to a point in time -/

/-- Embedding of add_years: checked i32 addition on the (local) year,
then with_year. -/
def add_years (dt : DateTimeTz) (years : Int) : Option DateTimeTz :=
  (i32CheckedAdd (yearOf dt) years).bind fun ny => withYearTz dt ny

/-- Accessor month0 of chrono Datelike: zero-based month, as an i64. -/
def NaiveDate.month0 (d : NaiveDate) : Int :=
  (d.month : Int) - 1

/-- Embedding of add_months_naive_date. Line by line:
checked i64 addition of the zero-based month and the count; truncating
i64 division and remainder by 12 (Int.tdiv / Int.tmod, exactly the
Rust `/` and `%`); the `as u32` cast of the remainder (u32cast); the
guard against additional_years at or above i32::MAX; checked i32
addition onto the year; the day clamp through last_day_of_month_0; and
the final from_ymd_opt on the u32-incremented zero-based month
(u32succ). The `as i32` cast of additional_years is the identity on
every reachable value (the quotient of an i64 in i32-plus-11 range by
12 always fits an i32). The try_opt early returns are the optStep
branches (ok none), and an abort inside last_day_of_month_0 propagates
through RunResult.bind. -/
def add_months_naive_date (date : NaiveDate) (months : Int) : RunResult (Option NaiveDate) :=
  optStep (i64CheckedAdd date.month0 months) fun next_month_0 =>
    let additional_years := Int.tdiv next_month_0 12
    let nm0 : Nat := u32cast (Int.tmod next_month_0 12)
    if 2147483647 ≤ additional_years then .ok none
    else
      optStep (i32CheckedAdd date.year additional_years) fun next_year =>
        (last_day_of_month_0 next_year nm0).bind fun lastDay =>
          .ok (fromYmdOpt next_year (u32succ nm0) (min date.day lastDay))

/-- Embedding of add_months_naive_dt: add months to the date part,
keep the time of day; an abort propagates. -/
def add_months_naive_dt (dt : NaiveDateTime) (months : Int) : RunResult (Option NaiveDateTime) :=
  (add_months_naive_date dt.date months).bind fun o =>
    .ok (o.map fun d => NaiveDateTime.mk d dt.time)

/-- Embedding of add_months_dt: month addition on the naive UTC
datetime, rebuilt with the unchanged offset (DateTime::from_utc); an
abort propagates. -/
def add_months_dt (dt : DateTimeTz) (months : Int) : RunResult (Option DateTimeTz) :=
  (add_months_naive_dt dt.utc months).bind fun o =>
    .ok (o.map fun n => DateTimeTz.mk n dt.offset)

/-- Embedding of checked_add (free function): the fixed duration via
checked_add_signed, then the years, then the months, threaded with
and_then (optStep); an abort inside the month step propagates. -/
def checked_add (dt : DateTimeTz) (duration : CalendarDuration) : RunResult (Option DateTimeTz) :=
  optStep (dtCheckedAddSigned dt duration.duration) fun dt1 =>
    optStep (add_years dt1 duration.years) fun dt2 =>
      add_months_dt dt2 duration.months

/-- Embedding of add (free function): checked_add followed by expect,
which aborts (panics) on none; an abort from inside checked_add
propagates as well. -/
def add (dt : DateTimeTz) (duration : CalendarDuration) : RunResult DateTimeTz :=
  (checked_add dt duration).bind fun o => orAbort o fun v => .ok v

/-! ### src/date_iterator.rs and src/date_iterators.rs -/

/-- Embedding of OpenEndedDateIterator: origin, step and the mutable
i32 iteration counter. The field `from` of the Rust struct is named
origin here (`from` is a Lean keyword). -/
structure OpenEndedDateIterator where
  origin : DateTimeTz
  duration : CalendarDuration
  iterations : Int
deriving DecidableEq

/-- Embedding of OpenEndedDateIterator::current (src/date_iterators.rs):
the value at the current counter, computed fresh from the origin. -/
def OpenEndedDateIterator.current (it : OpenEndedDateIterator) : RunResult (Option DateTimeTz) :=
  checked_add it.origin (calMulRef it.duration it.iterations)

/-- Embedding of the Iterator impl for OpenEndedDateIterator: yield the
value at the current counter and increment the counter (wrapping i32
increment, release semantics). Returns the outcome of the call (which
may be an abort from inside checked_add) and the successor state. -/
def OpenEndedDateIterator.next (it : OpenEndedDateIterator) :
    RunResult (Option DateTimeTz) × OpenEndedDateIterator :=
  (it.current, ⟨it.origin, it.duration, wrap32 (it.iterations + 1)⟩)

/-- Outcome of the (k+1)-th call of next on the open-ended iterator
(k counted from 0). -/
def OpenEndedDateIterator.nthYield (it : OpenEndedDateIterator) :
    Nat → RunResult (Option DateTimeTz)
  | 0 => it.next.1
  | k + 1 => OpenEndedDateIterator.nthYield it.next.2 k

/-- Embedding of ClosedDateIterator, specialised (as the constructors
date_iterator_from_to and to build it) to an open-ended underlying
iterator. -/
structure ClosedDateIterator where
  iter : OpenEndedDateIterator
  toBound : DateTimeTz
deriving DecidableEq

/-- Embedding of the Iterator impl for ClosedDateIterator: pull from
the underlying iterator (which always advances), then forward the value
only when strictly below the bound; an abort from the underlying call
propagates. -/
def ClosedDateIterator.next (c : ClosedDateIterator) :
    RunResult (Option DateTimeTz) × ClosedDateIterator :=
  ((c.iter.next.1).bind fun v =>
      .ok (v.bind fun dt => if dt.ltP c.toBound then some dt else none),
   ⟨c.iter.next.2, c.toBound⟩)

/-- Outcome of the (k+1)-th call of next on the closed iterator. -/
def ClosedDateIterator.nthYield (c : ClosedDateIterator) :
    Nat → RunResult (Option DateTimeTz)
  | 0 => c.next.1
  | k + 1 => ClosedDateIterator.nthYield c.next.2 k

/-- Embedding of OpenEndedPairwiseDateIterator. -/
structure OpenEndedPairwiseDateIterator where
  iter : OpenEndedDateIterator
deriving DecidableEq

/-- Embedding of the Iterator impl for OpenEndedPairwiseDateIterator:
pull the pair start from the underlying iterator (advancing it), then
recompute the pair end with current() at the advanced counter; the
whole pair is dropped (try_opt) when either computation returns none,
and an abort from either computation propagates. -/
def OpenEndedPairwiseDateIterator.next (p : OpenEndedPairwiseDateIterator) :
    RunResult (Option (DateTimeTz × DateTimeTz)) × OpenEndedPairwiseDateIterator :=
  ((p.iter.next.1).bind fun v => optStep v fun start =>
      (p.iter.next.2.current).bind fun w => .ok (w.map fun b => (start, b)),
   ⟨p.iter.next.2⟩)

/-- Embedding of ClosedPairwiseDateIterator. -/
structure ClosedPairwiseDateIterator where
  iter : OpenEndedPairwiseDateIterator
  toBound : DateTimeTz
deriving DecidableEq

/-- Embedding of the Iterator impl for ClosedPairwiseDateIterator:
pull a pair, forward it only when its first element is strictly below
the bound; an abort propagates. -/
def ClosedPairwiseDateIterator.next (c : ClosedPairwiseDateIterator) :
    RunResult (Option (DateTimeTz × DateTimeTz)) × ClosedPairwiseDateIterator :=
  ((c.iter.next.1).bind fun v =>
      .ok (v.bind fun dts => if dts.1.ltP c.toBound then some dts else none),
   ⟨c.iter.next.2, c.toBound⟩)


/-! ### Combinator lemmas -/

theorem runBind_ok {α β : Type} (a : α) (f : α → RunResult β) :
    (RunResult.ok a).bind f = f a := rfl

theorem runBind_aborts {α β : Type} (f : α → RunResult β) :
    (RunResult.aborts : RunResult α).bind f = RunResult.aborts := rfl

theorem optStep_some {α β : Type} (a : α) (f : α → RunResult (Option β)) :
    optStep (some a) f = f a := rfl

theorem optStep_none {α β : Type} (f : α → RunResult (Option β)) :
    optStep none f = RunResult.ok none := rfl

theorem orAbort_some {α β : Type} (a : α) (f : α → RunResult β) :
    orAbort (some a) f = f a := rfl

theorem orAbort_none {α β : Type} (f : α → RunResult β) :
    orAbort none f = RunResult.aborts := rfl

/-! ### Arithmetic helper lemmas -/

theorem wrap32_eq_self {x : Int} (h : InRange32 x) : wrap32 x = x := by
  unfold InRange32 at h; unfold wrap32; omega

theorem wrap32_inRange (x : Int) : InRange32 (wrap32 x) := by
  unfold InRange32 wrap32; omega

theorem wrap32_add_right (x y : Int) : wrap32 (wrap32 x + y) = wrap32 (x + y) := by
  unfold wrap32; omega

theorem wrap32_zero : wrap32 0 = 0 := by decide

theorem tdiv_coe (a b : Nat) : Int.tdiv (Int.ofNat a) (Int.ofNat b) = Int.ofNat (a / b) := rfl

theorem tmod_coe (a b : Nat) : Int.tmod (Int.ofNat a) (Int.ofNat b) = Int.ofNat (a % b) := rfl

/-! ### Calendar helper lemmas -/

theorem daysInMonth_pos (y : Int) (m : Nat) : 28 ≤ daysInMonth y m := by
  unfold daysInMonth; split
  · split <;> omega
  · split <;> omega

theorem daysInMonth_le (y : Int) (m : Nat) : daysInMonth y m ≤ 31 := by
  unfold daysInMonth; split
  · split <;> omega
  · split <;> omega

theorem daysInMonth_twelve (y : Int) : daysInMonth y 12 = 31 := by
  unfold daysInMonth; norm_num

/-! ### Successor and predecessor lemmas -/

theorem succOpt_valid {d e : NaiveDate} (hd : d.Valid) (h : succOpt d = some e) : e.Valid := by
  unfold succOpt at h
  unfold NaiveDate.Valid at hd ⊢
  split at h
  · cases h; simp_all; omega
  · split at h
    · cases h
      have := daysInMonth_pos d.year (d.month + 1)
      simp_all; omega
    · split at h
      · cases h
        have := daysInMonth_pos (d.year + 1) 1
        simp_all; omega
      · cases h

theorem predOpt_valid {d e : NaiveDate} (hd : d.Valid) (h : predOpt d = some e) : e.Valid := by
  unfold predOpt at h
  unfold NaiveDate.Valid at hd ⊢
  split at h
  · cases h; simp_all; omega
  · split at h
    · cases h
      have := daysInMonth_pos d.year (d.month - 1)
      simp_all; omega
    · split at h
      · cases h
        have := daysInMonth_twelve (d.year - 1)
        simp_all; omega
      · cases h

theorem succOpt_then_pred {d e : NaiveDate} (hd : d.Valid) (h : succOpt d = some e) :
    predOpt e = some d := by
  obtain ⟨y, m, dd⟩ := d
  obtain ⟨h1, h2, h3, h4, h5, h6⟩ := hd
  unfold succOpt at h
  dsimp only at h h1 h2 h3 h4 h5 h6
  split at h
  case isTrue hg =>
    cases h
    unfold predOpt
    dsimp only
    rw [if_pos (by omega)]
    simp
  case isFalse hg =>
    split at h
    case isTrue hg2 =>
      cases h
      unfold predOpt
      dsimp only
      rw [if_neg (by omega), if_pos (by omega)]
      have hdd : daysInMonth y m = dd := by omega
      simp [hdd]
    case isFalse hg2 =>
      split at h
      case isTrue hg3 =>
        cases h
        unfold predOpt
        dsimp only
        rw [if_neg (by omega), if_neg (by omega), if_pos (by omega)]
        have h31 := daysInMonth_twelve y
        have hle := daysInMonth_le y m
        have : m = 12 := by omega
        subst this
        have : dd = 31 := by omega
        subst this
        simp
      case isFalse hg3 => cases h

theorem predOpt_then_succ {d e : NaiveDate} (hd : d.Valid) (h : predOpt d = some e) :
    succOpt e = some d := by
  obtain ⟨y, m, dd⟩ := d
  obtain ⟨h1, h2, h3, h4, h5, h6⟩ := hd
  unfold predOpt at h
  dsimp only at h h1 h2 h3 h4 h5 h6
  split at h
  case isTrue hg =>
    cases h
    unfold succOpt
    dsimp only
    rw [if_pos (by omega)]
    have : dd - 1 + 1 = dd := by omega
    simp [this]
  case isFalse hg =>
    split at h
    case isTrue hg2 =>
      cases h
      unfold succOpt
      dsimp only
      rw [if_neg (by omega), if_pos (by omega)]
      have hm : m - 1 + 1 = m := by omega
      have hdd : dd = 1 := by omega
      simp [hm, hdd]
    case isFalse hg2 =>
      split at h
      case isTrue hg3 =>
        cases h
        unfold succOpt
        dsimp only
        have h31 := daysInMonth_twelve (y - 1)
        rw [if_neg (by omega), if_neg (by omega), if_pos (by omega)]
        have hm : m = 1 := by omega
        have hdd : dd = 1 := by omega
        have hy : y - 1 + 1 = y := by omega
        simp [hm, hdd, hy]
      case isFalse hg3 => cases h



/-! ### Day iteration lemmas -/

theorem succIter_valid {n : Nat} {d e : NaiveDate} (hd : d.Valid) (h : succIter n d = some e) :
    e.Valid := by
  induction n generalizing d with
  | zero => cases h; exact hd
  | succ n ih =>
    unfold succIter at h
    cases hs : succOpt d with
    | none => rw [hs] at h; cases h
    | some d1 => rw [hs] at h; exact ih (succOpt_valid hd hs) h

theorem predIter_valid {n : Nat} {d e : NaiveDate} (hd : d.Valid) (h : predIter n d = some e) :
    e.Valid := by
  induction n generalizing d with
  | zero => cases h; exact hd
  | succ n ih =>
    unfold predIter at h
    cases hs : predOpt d with
    | none => rw [hs] at h; cases h
    | some d1 => rw [hs] at h; exact ih (predOpt_valid hd hs) h

theorem succIter_snoc (n : Nat) (d : NaiveDate) :
    succIter (n + 1) d = (succIter n d).bind succOpt := by
  induction n generalizing d with
  | zero =>
    show (succOpt d).bind (succIter 0) = (some d).bind succOpt
    cases hs : succOpt d <;> simp [succIter, hs]
  | succ n ih =>
    show (succOpt d).bind (succIter (n + 1)) = ((succOpt d).bind (succIter n)).bind succOpt
    cases succOpt d with
    | none => simp
    | some d1 => simp [ih d1]

theorem predIter_snoc (n : Nat) (d : NaiveDate) :
    predIter (n + 1) d = (predIter n d).bind predOpt := by
  induction n generalizing d with
  | zero =>
    show (predOpt d).bind (predIter 0) = (some d).bind predOpt
    cases hs : predOpt d <;> simp [predIter, hs]
  | succ n ih =>
    show (predOpt d).bind (predIter (n + 1)) = ((predOpt d).bind (predIter n)).bind predOpt
    cases predOpt d with
    | none => simp
    | some d1 => simp [ih d1]

theorem succIter_then_pred {n : Nat} {d e : NaiveDate} (hd : d.Valid)
    (h : succIter n d = some e) : predIter n e = some d := by
  induction n generalizing e with
  | zero => cases h; rfl
  | succ n ih =>
    rw [succIter_snoc] at h
    cases hs : succIter n d with
    | none => rw [hs] at h; cases h
    | some mid =>
      rw [hs] at h
      simp only [Option.some_bind] at h
      have hmid : mid.Valid := succIter_valid hd hs
      unfold predIter
      rw [succOpt_then_pred hmid h]
      simp only [Option.some_bind]
      exact ih hs

theorem predIter_then_succ {n : Nat} {d e : NaiveDate} (hd : d.Valid)
    (h : predIter n d = some e) : succIter n e = some d := by
  induction n generalizing e with
  | zero => cases h; rfl
  | succ n ih =>
    rw [predIter_snoc] at h
    cases hs : predIter n d with
    | none => rw [hs] at h; cases h
    | some mid =>
      rw [hs] at h
      simp only [Option.some_bind] at h
      have hmid : mid.Valid := predIter_valid hd hs
      unfold succIter
      rw [predOpt_then_succ hmid h]
      simp only [Option.some_bind]
      exact ih hs

theorem addDays_zero (d : NaiveDate) : addDays d 0 = some d := rfl

theorem addDays_valid {d e : NaiveDate} {k : Int} (hd : d.Valid) (h : addDays d k = some e) :
    e.Valid := by
  unfold addDays at h
  split at h
  · exact succIter_valid hd h
  · exact predIter_valid hd h

theorem addDays_cancel {d e : NaiveDate} {k : Int} (hd : d.Valid) (h : addDays d k = some e) :
    addDays e (-k) = some d := by
  unfold addDays at h ⊢
  split at h
  case isTrue hk =>
    rcases Int.le_iff_lt_or_eq.mp hk with hk2 | hk2
    · rw [if_neg (by omega)]
      have hnn : (-(-k)).toNat = k.toNat := by omega
      rw [hnn]
      exact succIter_then_pred hd h
    · rw [← hk2] at h ⊢
      cases h; rw [if_pos (by omega)]; rfl
  case isFalse hk =>
    rw [if_pos (by omega)]
    exact predIter_then_succ hd h

/-! ### Nanosecond addition lemmas -/

theorem addNanos_valid {x y : NaiveDateTime} {k : Int} (hx : x.Valid) (h : addNanos x k = some y) :
    y.Valid := by
  obtain ⟨hdv, htv⟩ := hx
  unfold addNanos at h
  cases hd : addDays x.date (((x.time : Int) + k) / 86400000000000) with
  | none => rw [hd] at h; cases h
  | some d2 =>
    rw [hd] at h
    simp only [Option.map_some'] at h
    cases h
    refine ⟨addDays_valid hdv hd, ?_⟩
    show (((x.time : Int) + k) % 86400000000000).toNat < 86400000000000
    omega

theorem addNanos_zero {x : NaiveDateTime} (hx : x.Valid) : addNanos x 0 = some x := by
  obtain ⟨hdv, htv⟩ := hx
  unfold addNanos
  have hq : ((x.time : Int) + 0) / 86400000000000 = 0 := by omega
  have hr : (((x.time : Int) + 0) % 86400000000000).toNat = x.time := by omega
  rw [hq, addDays_zero]
  simp only [Option.map_some', hr]

theorem addNanos_cancel {x y : NaiveDateTime} {k : Int} (hx : x.Valid)
    (h : addNanos x k = some y) : addNanos y (-k) = some x := by
  obtain ⟨hdv, htv⟩ := hx
  unfold addNanos at h
  cases hd : addDays x.date (((x.time : Int) + k) / 86400000000000) with
  | none => rw [hd] at h; cases h
  | some d2 =>
    rw [hd] at h
    simp only [Option.map_some'] at h
    cases h
    unfold addNanos
    simp only
    have hq : (((((x.time : Int) + k) % 86400000000000).toNat : Int) + -k) / 86400000000000
        = -(((x.time : Int) + k) / 86400000000000) := by omega
    have hr : ((((((x.time : Int) + k) % 86400000000000).toNat : Int) + -k) % 86400000000000).toNat
        = x.time := by omega
    rw [hq, hr, addDays_cancel hdv hd]
    simp only [Option.map_some']

/-! ### Order lemmas -/

theorem ndEq_iff (a b : NaiveDate) :
    a = b ↔ (a.year = b.year ∧ a.month = b.month ∧ a.day = b.day) := by
  cases a; cases b; simp

theorem ndtLt_of_le_of_lt {a b c : NaiveDateTime} (h1 : a.ltP b ∨ a = b) (h2 : b.ltP c) :
    a.ltP c := by
  rcases h1 with h1 | h1
  · simp only [NaiveDateTime.ltP, NaiveDate.ltP, ndEq_iff] at h1 h2 ⊢
    omega
  · subst h1; exact h2

theorem dtLe_lt_trans {a b c : DateTimeTz} (h1 : a.leP b) (h2 : b.ltP c) : a.ltP c := by
  unfold DateTimeTz.leP at h1
  unfold DateTimeTz.ltP at h2 ⊢
  exact ndtLt_of_le_of_lt h1 h2

/-! ### Date construction lemmas -/

theorem fromYmdOpt_of_valid {d : NaiveDate} (hd : d.Valid) :
    fromYmdOpt d.year d.month d.day = some d := by
  unfold NaiveDate.Valid at hd
  unfold fromYmdOpt
  rw [if_pos hd]

theorem last_day_eq (y : Int) (m : Nat) (hy1 : -262144 ≤ y) (hy2 : y ≤ 262142)
    (hm1 : 1 ≤ m) (hm2 : m ≤ 12) :
    last_day_of_month y m = RunResult.ok (daysInMonth y m) := by
  unfold last_day_of_month
  have hdim1 := daysInMonth_pos (y + 1) 1
  rw [show fromYmdOpt (y + 1) 1 1 = some ⟨y + 1, 1, 1⟩ from by
    unfold fromYmdOpt
    rw [if_pos ⟨by omega, by omega, by omega, by omega, by omega, by omega⟩]]
  simp only [orAbort_some]
  by_cases hm : m ≤ 11
  · have hu : u32succ m = m + 1 := by unfold u32succ; omega
    rw [hu]
    have hdim := daysInMonth_pos y (m + 1)
    rw [show fromYmdOpt y (m + 1) 1 = some ⟨y, m + 1, 1⟩ from by
      unfold fromYmdOpt
      rw [if_pos ⟨hy1, by omega, by omega, by omega, by omega, by omega⟩]]
    simp only [Option.getD_some]
    unfold predOpt
    dsimp only
    rw [if_neg (by omega), if_pos (by omega)]
    simp only [orAbort_some]
    simp
  · have hm12 : m = 12 := by omega
    subst hm12
    rw [show u32succ 12 = 13 from rfl]
    rw [show fromYmdOpt y 13 1 = none from by
      unfold fromYmdOpt; rw [if_neg (by omega)]]
    simp only [Option.getD_none]
    unfold predOpt
    dsimp only
    rw [if_neg (by omega), if_neg (by omega), if_pos (by omega)]
    simp only [orAbort_some]
    rw [daysInMonth_twelve]

theorem last_day0_eq (y : Int) (m0 : Nat) (hy1 : -262144 ≤ y) (hy2 : y ≤ 262142)
    (hm0 : m0 ≤ 11) : last_day_of_month_0 y m0 = RunResult.ok (daysInMonth y (m0 + 1)) := by
  unfold last_day_of_month_0
  have hu : u32succ m0 = m0 + 1 := by unfold u32succ; omega
  rw [hu]
  exact last_day_eq y (m0 + 1) hy1 hy2 (by omega) (by omega)

/-! ### Zero-addition identities -/

theorem add_months_zero {d : NaiveDate} (hd : d.Valid) (hmax : d.year ≤ 262142) :
    add_months_naive_date d 0 = RunResult.ok (some d) := by
  have hv := hd
  unfold NaiveDate.Valid at hv
  obtain ⟨h1, h2, h3, h4, h5, h6⟩ := hv
  obtain ⟨k, hk⟩ : ∃ k : Nat, d.month = k + 1 := ⟨d.month - 1, by omega⟩
  have hk11 : k ≤ 11 := by omega
  unfold add_months_naive_date
  rw [show i64CheckedAdd d.month0 0 = some (k : Int) from by
    unfold i64CheckedAdd NaiveDate.month0; rw [if_pos (by omega)]; congr 1; omega]
  simp only [optStep_some]
  rw [show Int.tdiv (k : Int) 12 = 0 from by
    rw [show ((k : Int) = Int.ofNat k) from rfl, show ((12 : Int) = Int.ofNat 12) from rfl,
      tdiv_coe, Nat.div_eq_of_lt (by omega)]
    rfl]
  rw [if_neg (by omega)]
  rw [show i32CheckedAdd d.year 0 = some d.year from by
    unfold i32CheckedAdd; rw [if_pos (by omega)]; congr 1; omega]
  simp only [optStep_some]
  rw [show u32cast (Int.tmod (k : Int) 12) = k from by
    rw [show ((k : Int) = Int.ofNat k) from rfl, show ((12 : Int) = Int.ofNat 12) from rfl,
      tmod_coe, Nat.mod_eq_of_lt (by omega)]
    unfold u32cast
    show (((k : Int)) % 4294967296).toNat = k
    omega]
  rw [show last_day_of_month_0 d.year k = RunResult.ok (daysInMonth d.year (k + 1)) from
    last_day0_eq d.year k h1 hmax hk11]
  simp only [runBind_ok]
  rw [← hk]
  rw [show min d.day (daysInMonth d.year d.month) = d.day from by omega]
  rw [show u32succ k = d.month from by unfold u32succ; omega]
  rw [fromYmdOpt_of_valid hd]

theorem localOf_valid {p : DateTimeTz} {l : NaiveDateTime} (hp : p.utc.Valid)
    (h : localOf p = some l) : l.Valid :=
  addNanos_valid hp h

theorem dtCheckedAddSigned_zero {p : DateTimeTz} (hp : p.utc.Valid) :
    dtCheckedAddSigned p ⟨0⟩ = some p := by
  unfold dtCheckedAddSigned
  rw [addNanos_zero hp]
  rfl

theorem add_years_zero {p : DateTimeTz} (hp : p.Valid) : add_years p 0 = some p := by
  obtain ⟨hputc, hplocal⟩ := hp
  obtain ⟨l, hl⟩ := Option.isSome_iff_exists.mp hplocal
  have hlv : l.Valid := localOf_valid hputc hl
  unfold add_years
  rw [show i32CheckedAdd (yearOf p) 0 = some (yearOf p) from by
    unfold i32CheckedAdd
    have : yearOf p = l.date.year := by unfold yearOf; rw [hl]; rfl
    have hly := hlv.1.1
    have hly2 := hlv.1.2.1
    rw [if_pos (by omega)]
    congr 1; omega]
  simp only [Option.some_bind]
  unfold withYearTz
  rw [hl]
  simp only [Option.some_bind]
  rw [show yearOf p = l.date.year from by unfold yearOf; rw [hl]; rfl]
  rw [fromYmdOpt_of_valid hlv.1]
  simp only [Option.some_bind]
  have : (⟨l.date, l.time⟩ : NaiveDateTime) = l := rfl
  rw [this]
  rw [addNanos_cancel hputc hl]
  rfl

theorem add_months_dt_zero {p : DateTimeTz} (hp : p.utc.Valid)
    (hy : p.utc.date.year ≤ 262142) : add_months_dt p 0 = RunResult.ok (some p) := by
  unfold add_months_dt add_months_naive_dt
  rw [add_months_zero hp.1 hy]
  simp only [runBind_ok, Option.map_some']

theorem checked_add_zero {p : DateTimeTz} (hp : p.Valid) (hy : p.utc.date.year ≤ 262142) :
    checked_add p CalendarDuration.zero = RunResult.ok (some p) := by
  unfold checked_add
  rw [show CalendarDuration.zero.duration = (⟨0⟩ : OldDuration) from rfl]
  rw [dtCheckedAddSigned_zero hp.1]
  simp only [optStep_some]
  rw [show CalendarDuration.zero.years = 0 from rfl]
  rw [add_years_zero hp]
  simp only [optStep_some]
  rw [show CalendarDuration.zero.months = 0 from rfl]
  exact add_months_dt_zero hp.1 hy

/-! ### Iterator lemmas -/

theorem calMulRef_zero (d : CalendarDuration) : calMulRef d 0 = CalendarDuration.zero := by
  unfold calMulRef CalendarDuration.zero
  simp [wrap32_zero]

theorem open_nthYield_formula (k : Nat) (it : OpenEndedDateIterator)
    (h : InRange32 it.iterations) :
    it.nthYield k
      = checked_add it.origin (calMulRef it.duration (wrap32 (it.iterations + k))) := by
  induction k generalizing it with
  | zero =>
    show it.current = _
    unfold OpenEndedDateIterator.current
    rw [show it.iterations + ((0 : Nat) : Int) = it.iterations by simp, wrap32_eq_self h]
  | succ k ih =>
    show OpenEndedDateIterator.nthYield it.next.2 k = _
    rw [ih it.next.2 (by exact wrap32_inRange _)]
    show checked_add it.origin (calMulRef it.duration (wrap32 (wrap32 (it.iterations + 1) + k)))
      = _
    rw [wrap32_add_right]
    have harg : it.iterations + 1 + (k : Int) = it.iterations + ((k + 1 : Nat) : Int) := by
      push_cast; omega
    rw [harg]

theorem closed_nthYield_eq (k : Nat) (it : OpenEndedDateIterator) (bound : DateTimeTz) :
    ClosedDateIterator.nthYield ⟨it, bound⟩ k
      = (it.nthYield k).bind
          (fun v => RunResult.ok (v.bind fun dt => if dt.ltP bound then some dt else none)) := by
  induction k generalizing it with
  | zero => rfl
  | succ k ih =>
    show ClosedDateIterator.nthYield ⟨it.next.2, bound⟩ k = _
    exact ih it.next.2

theorem open_nthYield_zero_dur {p : DateTimeTz} (hp : p.Valid)
    (hy : p.utc.date.year ≤ 262142) (c : Int) (k : Nat) :
    OpenEndedDateIterator.nthYield ⟨p, CalendarDuration.zero, c⟩ k
      = RunResult.ok (some p) := by
  induction k generalizing c with
  | zero =>
    show checked_add p (calMulRef CalendarDuration.zero c) = RunResult.ok (some p)
    rw [show calMulRef CalendarDuration.zero c = CalendarDuration.zero from by
      unfold calMulRef CalendarDuration.zero; simp [wrap32_zero]]
    exact checked_add_zero hp hy
  | succ k ih =>
    show OpenEndedDateIterator.nthYield ⟨p, CalendarDuration.zero, wrap32 (c + 1)⟩ k
      = RunResult.ok (some p)
    exact ih (wrap32 (c + 1))

/-! ### Leap-year helper lemmas -/

theorem daysInMonth_two (y : Int) : daysInMonth y 2 = if gregLeap y then 29 else 28 := by
  unfold daysInMonth; norm_num

theorem is_leap_eq (y : Int) (hy1 : -262144 ≤ y) (hy2 : y ≤ 262143) :
    is_leap_year y = gregLeap y := by
  unfold is_leap_year fromYmdOpt
  cases hgb : gregLeap y with
  | false =>
    have hdim : daysInMonth y 2 = 28 := by simp [daysInMonth_two, hgb]
    rw [if_neg (by omega)]
    rfl
  | true =>
    have hdim : daysInMonth y 2 = 29 := by simp [daysInMonth_two, hgb]
    rw [if_pos ⟨hy1, hy2, by omega, by omega, by omega, by omega⟩]
    rfl

/-! ### Claim theorems -/

/-- C1: the claim states that add_months derives the target year and
month with floor-division semantics, so that month0 + m = -1 resolves
to December of the previous year rather than failing. The code instead
uses the truncating i64 division and remainder of Rust and casts the
possibly negative remainder to u32, so at 2017-01-15 with months = -1
it computes additional_years = 0 (not -1) and a wrapped month index
4294967295, and the final from_ymd_opt fails: the function returns
none (debug builds abort on the u32 increment overflow) instead of
2016-12-15. This theorem evaluates the embedded code at that failing
input and exhibits the truncated intermediate values. -/
theorem C1_add_months_truncates_instead_of_flooring :
    add_months_naive_date ⟨2017, 1, 15⟩ (-1) = RunResult.ok none ∧
    Int.tdiv ((⟨2017, 1, 15⟩ : NaiveDate).month0 + (-1)) 12 = 0 ∧
    u32cast (Int.tmod ((⟨2017, 1, 15⟩ : NaiveDate).month0 + (-1)) 12) = 4294967295 := by
  decide

/-- C2 (amended): add_months clamps the day-of-month to the last valid
day of the target month: for every representable year strictly below
the maximum year 262143, January 31 plus one month is February 28, or
29 in leap years, never an error and never an invalid day; and the
December 31, 1996 examples with 2, 4 and 5 months added yield
1997-02-28, 1997-04-30 and 1997-05-31. At the maximum year 262143 the
program instead aborts inside last_day_of_month, whose unwrap_or
argument NaiveDate::from_ymd(262144, 1, 1) is evaluated eagerly and
panics — see the counterexample. -/
theorem C2_add_months_clamps_day :
    (∀ y : Int, -262144 ≤ y → y ≤ 262142 →
      add_months_naive_date ⟨y, 1, 31⟩ 1
        = RunResult.ok (some ⟨y, 2, if is_leap_year y then 29 else 28⟩)) ∧
    add_months_naive_date ⟨1996, 12, 31⟩ 2 = RunResult.ok (some ⟨1997, 2, 28⟩) ∧
    add_months_naive_date ⟨1996, 12, 31⟩ 4 = RunResult.ok (some ⟨1997, 4, 30⟩) ∧
    add_months_naive_date ⟨1996, 12, 31⟩ 5 = RunResult.ok (some ⟨1997, 5, 31⟩) := by
  refine ⟨?_, by decide, by decide, by decide⟩
  intro y hy1 hy2
  unfold add_months_naive_date
  rw [show i64CheckedAdd (⟨y, 1, 31⟩ : NaiveDate).month0 1 = some 1 from by
    unfold i64CheckedAdd NaiveDate.month0; rw [if_pos (by norm_num)]; norm_num]
  simp only [optStep_some]
  rw [show Int.tdiv 1 12 = 0 from by decide]
  rw [if_neg (by decide)]
  rw [show i32CheckedAdd (⟨y, 1, 31⟩ : NaiveDate).year 0 = some y from by
    unfold i32CheckedAdd; rw [if_pos (by simp only; omega)]; simp]
  simp only [optStep_some]
  rw [show u32cast (Int.tmod 1 12) = 1 from by decide]
  rw [show last_day_of_month_0 y 1 = RunResult.ok (daysInMonth y 2) from
    last_day0_eq y 1 hy1 hy2 (by omega)]
  simp only [runBind_ok]
  rw [is_leap_eq y hy1 (by omega)]
  rw [daysInMonth_two]
  rw [show u32succ 1 = 2 from rfl]
  cases hgb : gregLeap y with
  | false =>
    have hdim : daysInMonth y 2 = 28 := by simp [daysInMonth_two, hgb]
    simp only [hgb, Bool.false_eq_true, if_false]
    rw [show min 31 28 = 28 from rfl]
    rw [show fromYmdOpt y 2 28 = some ⟨y, 2, 28⟩ from by
      unfold fromYmdOpt
      rw [if_pos ⟨hy1, by omega, by omega, by omega, by omega, by omega⟩]]
  | true =>
    have hdim : daysInMonth y 2 = 29 := by simp [daysInMonth_two, hgb]
    simp only [hgb, if_true]
    rw [show min 31 29 = 29 from rfl]
    rw [show fromYmdOpt y 2 29 = some ⟨y, 2, 29⟩ from by
      unfold fromYmdOpt
      rw [if_pos ⟨hy1, by omega, by omega, by omega, by omega, by omega⟩]]

/-- Witness for C2: the universally quantified clamping statement
instantiated at the leap year 2000. -/
theorem C2_add_months_clamps_day_witness :
    add_months_naive_date ⟨2000, 1, 31⟩ 1
      = RunResult.ok (some ⟨2000, 2, if is_leap_year 2000 then 29 else 28⟩) :=
  C2_add_months_clamps_day.1 2000 (by decide) (by decide)

/-- Counterexample for C2: at the maximum representable year 262143 —
within the range the claim quantifies over — adding one month to
January 31 does not produce February 28: the program aborts, because
last_day_of_month eagerly evaluates its unwrap_or argument
NaiveDate::from_ymd(262144, 1, 1), which panics on the out-of-range
year. -/
theorem C2_add_months_clamps_day_counterexample :
    add_months_naive_date ⟨262143, 1, 31⟩ 1 = RunResult.aborts := by
  decide

/-- C7: CalendarDuration::checked_add is the componentwise sum of
elapsed duration, months and years, and yields no result exactly when
one of the three component additions leaves its integer range (the
chrono Duration bounds for the elapsed part, the i32 range for months
and years). -/
theorem C7_calendar_duration_checked_add (a b : CalendarDuration) :
    ((-9223372036854775808000000 ≤ a.duration.nanos + b.duration.nanos ∧
        a.duration.nanos + b.duration.nanos ≤ 9223372036854775807000000) ∧
      InRange32 (a.months + b.months) ∧ InRange32 (a.years + b.years) →
      CalendarDuration.checked_add a b
        = some ⟨⟨a.duration.nanos + b.duration.nanos⟩, a.months + b.months, a.years + b.years⟩) ∧
    (¬((-9223372036854775808000000 ≤ a.duration.nanos + b.duration.nanos ∧
        a.duration.nanos + b.duration.nanos ≤ 9223372036854775807000000) ∧
      InRange32 (a.months + b.months) ∧ InRange32 (a.years + b.years)) →
      CalendarDuration.checked_add a b = none) := by
  unfold InRange32
  constructor
  · rintro ⟨hd, hm, hy⟩
    unfold CalendarDuration.checked_add durCheckedAdd i32CheckedAdd
    rw [if_pos hd]
    simp only [Option.some_bind]
    rw [if_pos hm]
    simp only [Option.some_bind]
    rw [if_pos hy]
    rfl
  · intro hn
    unfold CalendarDuration.checked_add durCheckedAdd i32CheckedAdd
    by_cases h1 : -9223372036854775808000000 ≤ a.duration.nanos + b.duration.nanos ∧
        a.duration.nanos + b.duration.nanos ≤ 9223372036854775807000000
    · rw [if_pos h1]
      simp only [Option.some_bind]
      by_cases h2 : -2147483648 ≤ a.months + b.months ∧ a.months + b.months < 2147483648
      · rw [if_pos h2]
        simp only [Option.some_bind]
        have h3 : ¬(-2147483648 ≤ a.years + b.years ∧ a.years + b.years < 2147483648) := by
          tauto
        rw [if_neg h3]
        rfl
      · rw [if_neg h2]
        rfl
    · rw [if_neg h1]
      rfl

/-- Witness for C7: componentwise sum at two small month durations. -/
theorem C7_calendar_duration_checked_add_witness :
    CalendarDuration.checked_add (CalendarDuration.mkMonths 1) (CalendarDuration.mkMonths 2)
      = some ⟨⟨(CalendarDuration.mkMonths 1).duration.nanos
            + (CalendarDuration.mkMonths 2).duration.nanos⟩,
          (CalendarDuration.mkMonths 1).months + (CalendarDuration.mkMonths 2).months,
          (CalendarDuration.mkMonths 1).years + (CalendarDuration.mkMonths 2).years⟩ :=
  (C7_calendar_duration_checked_add (CalendarDuration.mkMonths 1)
    (CalendarDuration.mkMonths 2)).1 (by refine ⟨by decide, by decide, by decide⟩)

/-- C9: whenever add_months_dt succeeds, the offset metadata and the
time of day of the UTC instant are unchanged; only the date component
changes, and it changes exactly as add_months_naive_date on the naive
UTC date. -/
theorem C9_add_months_preserves_time_and_offset (dt : DateTimeTz) (m : Int) (r : DateTimeTz)
    (h : add_months_dt dt m = RunResult.ok (some r)) :
    r.offset = dt.offset ∧ r.utc.time = dt.utc.time ∧
    add_months_naive_date dt.utc.date m = RunResult.ok (some r.utc.date) := by
  unfold add_months_dt add_months_naive_dt at h
  cases hm : add_months_naive_date dt.utc.date m with
  | aborts => rw [hm] at h; simp [runBind_aborts] at h
  | ok o =>
    rw [hm] at h
    simp only [runBind_ok] at h
    cases o with
    | none => simp at h
    | some nd =>
      simp only [Option.map_some'] at h
      cases h
      exact ⟨rfl, rfl, rfl⟩

/-- Witness for C9: one month past 2020-01-31T00:00:00.000000999 at
offset +01:00. -/
theorem C9_add_months_preserves_time_and_offset_witness :
    (⟨⟨⟨2020, 2, 29⟩, 999⟩, 3600⟩ : DateTimeTz).offset
        = (⟨⟨⟨2020, 1, 31⟩, 999⟩, 3600⟩ : DateTimeTz).offset ∧
      (⟨⟨⟨2020, 2, 29⟩, 999⟩, 3600⟩ : DateTimeTz).utc.time
        = (⟨⟨⟨2020, 1, 31⟩, 999⟩, 3600⟩ : DateTimeTz).utc.time ∧
      add_months_naive_date (⟨⟨⟨2020, 1, 31⟩, 999⟩, 3600⟩ : DateTimeTz).utc.date 1
        = RunResult.ok (some (⟨⟨⟨2020, 2, 29⟩, 999⟩, 3600⟩ : DateTimeTz).utc.date) :=
  C9_add_months_preserves_time_and_offset ⟨⟨⟨2020, 1, 31⟩, 999⟩, 3600⟩ 1
    ⟨⟨⟨2020, 2, 29⟩, 999⟩, 3600⟩ (by decide)

/-- C10 (amended): scalar division of a CalendarDuration by a nonzero
divisor divides the three components independently — truncating toward
zero on the i32 month and year counts, and per the chrono seconds and
nanoseconds split (durDiv) on the elapsed component — provided no
component division overflows; division by zero is a fatal error
(abort), and so is the single overflowing division of an i32 component
-2147483648 by -1 — the case the original claim overlooks. -/
theorem C10_scalar_division (d : CalendarDuration) (n : Int) (hn : n ≠ 0)
    (hm : ¬(d.months = -2147483648 ∧ n = -1)) (hy : ¬(d.years = -2147483648 ∧ n = -1)) :
    calDurDiv d n
        = RunResult.ok ⟨⟨durDiv d.duration.nanos n⟩, Int.tdiv d.months n, Int.tdiv d.years n⟩ ∧
      calDurDiv d 0 = RunResult.aborts := by
  unfold calDurDiv
  constructor
  · rw [if_neg (by tauto)]
  · rw [if_pos (Or.inl rfl)]

/-- Witness for C10: componentwise division of a mixed-sign duration
by 2, and the abort on division by zero. -/
theorem C10_scalar_division_witness :
    calDurDiv ⟨⟨7⟩, 7, -7⟩ 2
        = RunResult.ok ⟨⟨durDiv (⟨⟨7⟩, 7, -7⟩ : CalendarDuration).duration.nanos 2⟩,
            Int.tdiv (⟨⟨7⟩, 7, -7⟩ : CalendarDuration).months 2,
            Int.tdiv (⟨⟨7⟩, 7, -7⟩ : CalendarDuration).years 2⟩ ∧
      calDurDiv ⟨⟨7⟩, 7, -7⟩ 0 = RunResult.aborts :=
  C10_scalar_division ⟨⟨7⟩, 7, -7⟩ 2 (by decide) (by decide) (by decide)

/-- Counterexample for C10: n = -1 is nonzero, yet dividing the
duration of -2147483648 months by it aborts (overflow of the i32
division) instead of producing a componentwise quotient, refuting the
claim that division is defined for every nonzero divisor. -/
theorem C10_scalar_division_counterexample :
    calDurDiv (CalendarDuration.mkMonths (-2147483648)) (-1) = RunResult.aborts ∧
      (-1 : Int) ≠ 0 := by
  decide

/-- C3: checked_add applies the three duration components in the fixed
order elapsed duration, then years, then months, each step on the
result of the previous one, and fails fast: when a step yields none
the whole application yields none without a partial result. -/
theorem C3_checked_add_applies_in_order (p : DateTimeTz) (d : CalendarDuration) :
    (dtCheckedAddSigned p d.duration = none → checked_add p d = RunResult.ok none) ∧
    (∀ p1, dtCheckedAddSigned p d.duration = some p1 →
      (add_years p1 d.years = none → checked_add p d = RunResult.ok none) ∧
      (∀ p2, add_years p1 d.years = some p2 →
        checked_add p d = add_months_dt p2 d.months)) := by
  constructor
  · intro h
    unfold checked_add
    rw [h]
    rfl
  · intro p1 h1
    constructor
    · intro h2
      unfold checked_add
      rw [h1]
      simp only [optStep_some]
      rw [h2]
      rfl
    · intro p2 h2
      unfold checked_add
      rw [h1]
      simp only [optStep_some]
      rw [h2]
      simp only [optStep_some]

/-- Witness for C3: the order statement instantiated at
2000-03-15T00:00Z with one day of elapsed duration, one year and one
month, threading the concrete intermediate results of each step. -/
theorem C3_checked_add_applies_in_order_witness :
    checked_add ⟨⟨⟨2000, 3, 15⟩, 0⟩, 0⟩ ⟨⟨86400000000000⟩, 1, 1⟩
      = add_months_dt ⟨⟨⟨2001, 3, 16⟩, 0⟩, 0⟩ 1 :=
  ((C3_checked_add_applies_in_order ⟨⟨⟨2000, 3, 15⟩, 0⟩, 0⟩ ⟨⟨86400000000000⟩, 1, 1⟩).2
    ⟨⟨⟨2000, 3, 16⟩, 0⟩, 0⟩ (by decide)).2 ⟨⟨⟨2001, 3, 16⟩, 0⟩, 0⟩ (by decide)

/-- C4 (amended): the open-ended iterator computes its k-th produced
value freshly from the origin as checked_add(origin, step * k) (with
the scalar multiplication of the source Mul impl); for a valid origin
whose UTC year is below the maximum representable year 262143 the
first produced value is the origin unchanged; and when the checked
application returns no result the call yields nothing instead of a
wrapped or partial value. Unlike the original claim, a call is not
always free of aborts: whenever the month-arithmetic target year is
262143 or lies outside the chrono range, the day-clamp helper aborts
(eager NaiveDate::from_ymd in unwrap_or), and in particular a valid
origin in year 262143 aborts on the very first call — see the
counterexample. -/
theorem C4_open_iterator_fresh_from_origin (origin : DateTimeTz) (dur : CalendarDuration)
    (k : Nat) (hk : (k : Int) < 2147483648) (hv : origin.Valid)
    (hy : origin.utc.date.year ≤ 262142) :
    OpenEndedDateIterator.nthYield ⟨origin, dur, 0⟩ k
        = checked_add origin (calMulRef dur (k : Int)) ∧
    OpenEndedDateIterator.nthYield ⟨origin, dur, 0⟩ 0 = RunResult.ok (some origin) ∧
    (checked_add origin (calMulRef dur (k : Int)) = RunResult.ok none →
      OpenEndedDateIterator.nthYield ⟨origin, dur, 0⟩ k = RunResult.ok none) := by
  have ha : OpenEndedDateIterator.nthYield ⟨origin, dur, 0⟩ k
      = checked_add origin (calMulRef dur (k : Int)) := by
    rw [open_nthYield_formula k ⟨origin, dur, 0⟩ (by show InRange32 (0 : Int); decide)]
    show checked_add origin (calMulRef dur (wrap32 (0 + (k : Int)))) = _
    rw [show (0 : Int) + (k : Int) = (k : Int) by omega]
    rw [wrap32_eq_self ⟨by omega, hk⟩]
  refine ⟨ha, ?_, fun hnone => ha.trans hnone⟩
  show checked_add origin (calMulRef dur 0) = RunResult.ok (some origin)
  rw [calMulRef_zero]
  exact checked_add_zero hv hy

/-- Witness for C4: the fresh-from-origin statement at origin
2020-01-31T00:00Z, one-month step and k = 1. -/
theorem C4_open_iterator_fresh_from_origin_witness :
    OpenEndedDateIterator.nthYield
        ⟨⟨⟨⟨2020, 1, 31⟩, 0⟩, 0⟩, CalendarDuration.mkMonths 1, 0⟩ 1
      = checked_add ⟨⟨⟨2020, 1, 31⟩, 0⟩, 0⟩ (calMulRef (CalendarDuration.mkMonths 1) 1) :=
  (C4_open_iterator_fresh_from_origin ⟨⟨⟨2020, 1, 31⟩, 0⟩, 0⟩
    (CalendarDuration.mkMonths 1) 1 (by decide) (by decide) (by decide)).1

/-- Counterexample for C4: the origin 262143-01-31T00:00Z is a valid
point, yet the very first produce-next call aborts — the program
panics inside last_day_of_month (eager NaiveDate::from_ymd(262144, 1,
1) in unwrap_or) — so the first produced value is not the origin
unchanged, and the iterator does not convert every failure into
natural termination rather than panicking. -/
theorem C4_open_iterator_fresh_from_origin_counterexample :
    (⟨⟨⟨262143, 1, 31⟩, 0⟩, 0⟩ : DateTimeTz).Valid ∧
    OpenEndedDateIterator.nthYield
        ⟨⟨⟨⟨262143, 1, 31⟩, 0⟩, 0⟩, CalendarDuration.zero, 0⟩ 0 = RunResult.aborts := by
  decide

/-- C8 (amended): applying 300000 years fails for every valid point
whose (local) calendar year is at least -37856 — equivalently,
whenever the target year 300000 + year exceeds the maximum
representable year 262143 — and the unchecked add aborts there
(the aborts branch of its expect). For valid points with smaller
years the addition succeeds, so the restriction is necessary (see the
counterexample). -/
theorem C8_overflow_300000_years (p : DateTimeTz) (hp : p.Valid) (hy : -37856 ≤ yearOf p) :
    checked_add p (CalendarDuration.mkYears 300000) = RunResult.ok none ∧
    add p (CalendarDuration.mkYears 300000) = RunResult.aborts := by
  obtain ⟨hputc, hploc⟩ := hp
  obtain ⟨l, hl⟩ := Option.isSome_iff_exists.mp hploc
  have hlv := localOf_valid hputc hl
  have hyl : yearOf p = l.date.year := by unfold yearOf; rw [hl]; rfl
  have hly1 := hlv.1.1
  have hly2 := hlv.1.2.1
  suffices h : checked_add p (CalendarDuration.mkYears 300000) = RunResult.ok none from
    ⟨h, by unfold add; rw [h]; rfl⟩
  unfold checked_add
  rw [show (CalendarDuration.mkYears 300000).duration = (⟨0⟩ : OldDuration) from rfl]
  rw [dtCheckedAddSigned_zero hputc]
  simp only [optStep_some]
  rw [show (CalendarDuration.mkYears 300000).years = 300000 from rfl]
  rw [show add_years p 300000 = none from by
    unfold add_years
    rw [show i32CheckedAdd (yearOf p) 300000 = some (yearOf p + 300000) from by
      unfold i32CheckedAdd; rw [if_pos (by omega)]]
    simp only [Option.some_bind]
    unfold withYearTz
    rw [hl]
    simp only [Option.some_bind]
    rw [show fromYmdOpt (yearOf p + 300000) l.date.month l.date.day = none from by
      unfold fromYmdOpt; rw [if_neg (by omega)]]
    rfl]
  rfl

/-- Witness for C8: the overflow statement at the date of the overflow
test of the repository, 1996-12-19T16:39:57.123Z. -/
theorem C8_overflow_300000_years_witness :
    checked_add ⟨⟨⟨1996, 12, 19⟩, 59997123000000⟩, 0⟩ (CalendarDuration.mkYears 300000)
        = RunResult.ok none ∧
      add ⟨⟨⟨1996, 12, 19⟩, 59997123000000⟩, 0⟩ (CalendarDuration.mkYears 300000)
        = RunResult.aborts :=
  C8_overflow_300000_years ⟨⟨⟨1996, 12, 19⟩, 59997123000000⟩, 0⟩ (by decide) (by decide)

/-- Counterexample for C8: the claim quantifies over every date, but at
the valid date -100000-01-01T00:00Z both the checked and the unchecked
application of 300000 years succeed (the target year 200000 is
representable), so not every date overflows. -/
theorem C8_overflow_300000_years_counterexample :
    checked_add ⟨⟨⟨-100000, 1, 1⟩, 0⟩, 0⟩ (CalendarDuration.mkYears 300000)
        = RunResult.ok (some ⟨⟨⟨200000, 1, 1⟩, 0⟩, 0⟩) ∧
      add ⟨⟨⟨-100000, 1, 1⟩, 0⟩, 0⟩ (CalendarDuration.mkYears 300000)
        = RunResult.ok ⟨⟨⟨200000, 1, 1⟩, 0⟩, 0⟩ := by
  decide

/-- C5 (amended): the closed iterator forwards a produced value exactly
when the underlying open-ended iterator produces it and it is strictly
below the bound; and provided the underlying produced sequence is
monotone non-decreasing with absorbing failure (which holds for
non-negative steps but not in general — see the counterexample with a
negative step), a call that yields nothing is permanent: every later
call also yields nothing. -/
theorem C5_closed_iterator_bound (it : OpenEndedDateIterator) (bound : DateTimeTz)
    (hmono : ∀ j : Nat,
      (it.nthYield j = RunResult.ok none → it.nthYield (j + 1) = RunResult.ok none) ∧
      (∀ a, it.nthYield j = RunResult.ok (some a) →
        it.nthYield (j + 1) = RunResult.ok none ∨
        ∃ b, it.nthYield (j + 1) = RunResult.ok (some b) ∧ a.leP b)) :
    (∀ j v, ClosedDateIterator.nthYield ⟨it, bound⟩ j = RunResult.ok (some v) ↔
        (it.nthYield j = RunResult.ok (some v) ∧ v.ltP bound)) ∧
    (∀ k m : Nat, k ≤ m → ClosedDateIterator.nthYield ⟨it, bound⟩ k = RunResult.ok none →
      ClosedDateIterator.nthYield ⟨it, bound⟩ m = RunResult.ok none) := by
  have hfilter : ∀ j, ClosedDateIterator.nthYield ⟨it, bound⟩ j
      = (it.nthYield j).bind
          (fun v => RunResult.ok (v.bind fun dt => if dt.ltP bound then some dt else none)) :=
    fun j => closed_nthYield_eq j it bound
  constructor
  · intro j v
    rw [hfilter j]
    cases ho : it.nthYield j with
    | aborts => simp [runBind_aborts]
    | ok w =>
      simp only [runBind_ok]
      cases w with
      | none => simp
      | some x =>
        simp only [Option.some_bind]
        by_cases hlt : x.ltP bound
        · rw [if_pos hlt]
          constructor
          · intro h
            cases h
            exact ⟨rfl, hlt⟩
          · rintro ⟨hw, _⟩
            cases hw
            rfl
        · rw [if_neg hlt]
          constructor
          · intro h; simp at h
          · rintro ⟨hw, hv⟩
            cases hw
            exact absurd hv hlt
  · have hstep : ∀ j : Nat,
        ClosedDateIterator.nthYield ⟨it, bound⟩ j = RunResult.ok none →
        ClosedDateIterator.nthYield ⟨it, bound⟩ (j + 1) = RunResult.ok none := by
      intro j hj
      rw [hfilter] at hj ⊢
      cases ho : it.nthYield j with
      | aborts => rw [ho] at hj; simp [runBind_aborts] at hj
      | ok w =>
        rw [ho] at hj
        simp only [runBind_ok] at hj
        cases w with
        | none =>
          rw [(hmono j).1 ho]
          rfl
        | some x =>
          simp only [Option.some_bind] at hj
          have hnlt : ¬ x.ltP bound := by
            by_cases h : x.ltP bound
            · rw [if_pos h] at hj; simp at hj
            · exact h
          rcases (hmono j).2 x ho with h2 | ⟨b, hb, hle⟩
          · rw [h2]
            rfl
          · rw [hb]
            simp only [runBind_ok, Option.some_bind]
            rw [if_neg (fun hbl => hnlt (dtLe_lt_trans hle hbl))]
    intro k m hkm hk
    induction m, hkm using Nat.le_induction with
    | base => exact hk
    | succ n hn ih => exact hstep n ih

/-- Witness for C5: a zero-step iterator from 2020-01-01T00:00Z bounded
by its own origin satisfies the monotonicity hypothesis, yields
nothing immediately and still yields nothing at the fourth call. -/
theorem C5_closed_iterator_bound_witness :
    ClosedDateIterator.nthYield
        ⟨⟨⟨⟨⟨2020, 1, 1⟩, 0⟩, 0⟩, CalendarDuration.zero, 0⟩, ⟨⟨⟨2020, 1, 1⟩, 0⟩, 0⟩⟩ 3
      = RunResult.ok none := by
  have hz : ∀ j : Nat, OpenEndedDateIterator.nthYield
      ⟨⟨⟨⟨2020, 1, 1⟩, 0⟩, 0⟩, CalendarDuration.zero, 0⟩ j
        = RunResult.ok (some ⟨⟨⟨2020, 1, 1⟩, 0⟩, 0⟩) :=
    fun j => open_nthYield_zero_dur (by decide) (by decide) 0 j
  refine (C5_closed_iterator_bound ⟨⟨⟨⟨2020, 1, 1⟩, 0⟩, 0⟩, CalendarDuration.zero, 0⟩
      ⟨⟨⟨2020, 1, 1⟩, 0⟩, 0⟩ ?_).2 0 3 (by omega) (by decide)
  intro j
  refine ⟨fun h => ?_, fun a ha => ?_⟩
  · rw [hz j] at h; simp at h
  · rw [hz j] at ha
    cases ha
    exact Or.inr ⟨⟨⟨⟨2020, 1, 1⟩, 0⟩, 0⟩, hz (j + 1), Or.inr rfl⟩

/-- Counterexample for C5: with the negative step of -1 year from
2020-01-01T00:00Z and the bound equal to the origin, the first call
yields nothing (the origin is not strictly below the bound) but the
second call yields 2019-01-01T00:00Z, which is below the bound: the
underlying sequence is not monotone, so yielding nothing is not
permanent and the claim as stated fails. -/
theorem C5_closed_iterator_bound_counterexample :
    ClosedDateIterator.nthYield
        ⟨⟨⟨⟨⟨2020, 1, 1⟩, 0⟩, 0⟩, CalendarDuration.mkYears (-1), 0⟩, ⟨⟨⟨2020, 1, 1⟩, 0⟩, 0⟩⟩ 0
        = RunResult.ok none ∧
      ClosedDateIterator.nthYield
        ⟨⟨⟨⟨⟨2020, 1, 1⟩, 0⟩, 0⟩, CalendarDuration.mkYears (-1), 0⟩, ⟨⟨⟨2020, 1, 1⟩, 0⟩, 0⟩⟩ 1
        = RunResult.ok (some ⟨⟨⟨2019, 1, 1⟩, 0⟩, 0⟩) := by
  decide

/-- C6: a pairwise iterator whose underlying counter is i yields the
pair (origin + step * i, origin + step * (i + 1)), both elements
computed independently from the origin by the checked application, and
its successor state has counter i + 1 (so the second element is
recomputed, not reused); over a closed sequence the pair is forwarded
exactly when its first element is strictly below the bound — the
second element is not compared with the bound. -/
theorem C6_pairwise_iterator (origin : DateTimeTz) (dur : CalendarDuration) (i : Int)
    (bound : DateTimeTz) (hi : InRange32 i) (hi1 : i + 1 < 2147483648) :
    (∀ a b, (OpenEndedPairwiseDateIterator.next ⟨⟨origin, dur, i⟩⟩).1
          = RunResult.ok (some (a, b)) ↔
        (checked_add origin (calMulRef dur i) = RunResult.ok (some a) ∧
          checked_add origin (calMulRef dur (i + 1)) = RunResult.ok (some b))) ∧
    (OpenEndedPairwiseDateIterator.next ⟨⟨origin, dur, i⟩⟩).2 = ⟨⟨origin, dur, i + 1⟩⟩ ∧
    (∀ a b, checked_add origin (calMulRef dur i) = RunResult.ok (some a) →
        checked_add origin (calMulRef dur (i + 1)) = RunResult.ok (some b) →
        (ClosedPairwiseDateIterator.next ⟨⟨⟨origin, dur, i⟩⟩, bound⟩).1
          = RunResult.ok (if a.ltP bound then some (a, b) else none)) := by
  have hw : wrap32 (i + 1) = i + 1 :=
    wrap32_eq_self ⟨by unfold InRange32 at hi; omega, hi1⟩
  have hnext1 : (OpenEndedPairwiseDateIterator.next ⟨⟨origin, dur, i⟩⟩).1
      = (checked_add origin (calMulRef dur i)).bind (fun v => optStep v fun start =>
          (checked_add origin (calMulRef dur (i + 1))).bind fun w =>
            RunResult.ok (w.map fun b => (start, b))) := by
    show (checked_add origin (calMulRef dur i)).bind (fun v => optStep v fun start =>
        (checked_add origin (calMulRef dur (wrap32 (i + 1)))).bind fun w =>
          RunResult.ok (w.map fun b => (start, b))) = _
    rw [hw]
  refine ⟨?_, ?_, ?_⟩
  · intro a b
    rw [hnext1]
    cases h1 : checked_add origin (calMulRef dur i) with
    | aborts => simp [runBind_aborts]
    | ok v =>
      simp only [runBind_ok]
      cases v with
      | none => simp [optStep_none]
      | some x =>
        simp only [optStep_some]
        cases h2 : checked_add origin (calMulRef dur (i + 1)) with
        | aborts => simp [runBind_aborts]
        | ok w =>
          simp only [runBind_ok]
          cases w with
          | none => simp
          | some yv =>
            simp only [Option.map_some', RunResult.ok.injEq, Option.some.injEq,
              Prod.mk.injEq]
  · show (⟨⟨origin, dur, wrap32 (i + 1)⟩⟩ : OpenEndedPairwiseDateIterator) = _
    rw [hw]
  · intro a b h1 h2
    show ((OpenEndedPairwiseDateIterator.next ⟨⟨origin, dur, i⟩⟩).1).bind
        (fun v => RunResult.ok (v.bind fun dts =>
          if dts.1.ltP bound then some dts else none)) = _
    rw [hnext1, h1]
    simp only [runBind_ok, optStep_some]
    rw [h2]
    rfl

/-- Witness for C6: the closed pairwise iterator from 2020-01-31T00:00Z
with a one-month step and bound 2021-01-01T00:00Z yields the pair
(2020-01-31, 2020-02-29) on its first call. -/
theorem C6_pairwise_iterator_witness :
    (ClosedPairwiseDateIterator.next
        ⟨⟨⟨⟨⟨⟨2020, 1, 31⟩, 0⟩, 0⟩, CalendarDuration.mkMonths 1, 0⟩⟩,
          ⟨⟨⟨2021, 1, 1⟩, 0⟩, 0⟩⟩).1
      = RunResult.ok (if (⟨⟨⟨2020, 1, 31⟩, 0⟩, 0⟩ : DateTimeTz).ltP ⟨⟨⟨2021, 1, 1⟩, 0⟩, 0⟩
        then some (⟨⟨⟨2020, 1, 31⟩, 0⟩, 0⟩, ⟨⟨⟨2020, 2, 29⟩, 0⟩, 0⟩) else none) :=
  (C6_pairwise_iterator ⟨⟨⟨2020, 1, 31⟩, 0⟩, 0⟩ (CalendarDuration.mkMonths 1) 0
    ⟨⟨⟨2021, 1, 1⟩, 0⟩, 0⟩ (by decide) (by decide)).2.2
    ⟨⟨⟨2020, 1, 31⟩, 0⟩, 0⟩ ⟨⟨⟨2020, 2, 29⟩, 0⟩, 0⟩ (by decide) (by decide)

end DateIter
